import Mathlib

/-!
Shallow embedding of the ansible-api orchestrator (Go, repository
Cellofworld/ansible-api) and proofs about its specification claims.

Conventions of the embedding:
* Timestamps are integers (a fixed sub-second unit, e.g. seconds); durations
  are differences of timestamps in the same unit.
* Go maps from string to string are association lists with last-write-wins
  insertion (mirroring iteration/insertion behaviour where it matters).
* Database tables are Lean lists; a SQL DELETE/WHERE is a filter, a LIMIT /
  OFFSET is take/drop, ORDER BY is an insertion sort with the given order.
* Fallible external effects (file existence, database errors, subprocess exit
  status) are explicit boolean/Except parameters.
-/

namespace AnsibleApi

/-- Single quote character (code point 39), used by the result parser. -/
def quoteChar : Char := Char.ofNat 39

/-- String consisting of one single-quote character. -/
def sq : String := String.singleton quoteChar

/-- Newline character, the separator of captured output lines. -/
def newlineChar : Char := Char.ofNat 10

/-- Split a character list at every character satisfying p (the separators
are dropped; empty chunks are kept, as in Go strings.Split). -/
def splitWhen (p : Char → Bool) : List Char → List (List Char)
  | [] => [[]]
  | c :: rest =>
    match splitWhen p rest with
    | [] => if p c then [[], []] else [[c]]
    | g :: gs => if p c then [] :: g :: gs else (c :: g) :: gs

/-- Embedding of Go strings.Split(s, sep) for a single-character separator. -/
def goSplitLines (s : String) : List String :=
  (splitWhen (fun c => c = newlineChar) s.data).map String.mk

/-- Embedding of Go strings.Fields: split on whitespace runs, dropping empty
tokens. -/
def goFields (s : String) : List String :=
  ((splitWhen Char.isWhitespace s.data).filter (fun t => t ≠ [])).map String.mk

/-- Decide whether the first list is a prefix of the second. -/
def isPrefixList : List Char → List Char → Bool
  | [], _ => true
  | _ :: _, [] => false
  | a :: as, b :: bs => a = b && isPrefixList as bs

/-- Decide whether sub occurs as a contiguous sublist of the second list. -/
def containsSub (sub : List Char) : List Char → Bool
  | [] => sub.isEmpty
  | c :: rest => isPrefixList sub (c :: rest) || containsSub sub rest

/-- Embedding of Go strings.Contains: substring test. -/
def goContains (s sub : String) : Bool :=
  containsSub sub.data s.data

/-- Embedding of Go strings.TrimRight(s, cutset) for the single-quote cutset:
drop trailing characters satisfying p. -/
def dropTrailing (p : Char → Bool) (cs : List Char) : List Char :=
  (cs.reverse.dropWhile p).reverse

/-- Go map assignment m[k] = v on an association list: overwrite the existing
binding if present (last write wins), otherwise append. -/
def mapPut (m : List (String × String)) (k v : String) : List (String × String) :=
  if m.any (fun p => p.1 = k) then
    m.map (fun p => if p.1 = k then (k, v) else p)
  else m ++ [(k, v)]

/-- Embedding of parsePingResults (src/unnamed/part_001 lines 959-976): scan
the captured output line by line; a line both containing "Host" and "is" with
at least 6 whitespace-separated fields contributes field index 1 as host and
field index 5, with trailing single quotes stripped, as status. -/
def parsePingResults (output : String) : List (String × String) :=
  let lines := goSplitLines output
  lines.foldl (fun results line =>
    if goContains line "Host" && goContains line "is" then
      let parts := goFields line
      if parts.length ≥ 6 then
        let host := parts.getD 1 ""
        let status := String.mk (dropTrailing (fun c => c = quoteChar) (parts.getD 5 "").data)
        mapPut results host status
      else results
    else results) []

/-- The captured text of the specification example for the probe parser:
lines Host web1 is (quoted reachable), Host web2 is (quoted unreachable),
and the malformed Host web3 is. -/
def specExampleText : String :=
  "Host web1 is " ++ sq ++ "reachable" ++ sq ++ "\n" ++
  "Host web2 is " ++ sq ++ "unreachable" ++ sq ++ "\n" ++
  "Host web3 is"

/-- A captured text in the 6-field shape the parser actually accepts: each
result line has at least six whitespace-separated fields, with the host at
field index 1 and the status at field index 5 (trailing quote stripped). -/
def sixFieldExampleText : String :=
  "Host: web1 x is y reachable" ++ sq ++ "\n" ++
  "Host: web2 x is y unreachable" ++ sq ++ "\n" ++
  "Host web3 is"

/-- Embedding of the extra-vars serialization loop of runAnsiblePlaybook
(src/unnamed/part_001 lines 620-629): fold the key=value pairs into one
string, separating successive pairs with a single space. -/
def buildExtraVarsStr (extraVars : List (String × String)) : String :=
  extraVars.foldl (fun acc p =>
    (if acc = "" then acc else acc ++ " ") ++ p.1 ++ "=" ++ p.2) ""

/-- Specification-side serialization of override variables: key=value pairs
joined by single spaces (written independently of the source loop, for the
refinement comparison in claim C6). -/
def joinedKeyValues : List (String × String) → String
  | [] => ""
  | [p] => p.1 ++ "=" ++ p.2
  | p :: q :: rest => p.1 ++ "=" ++ p.2 ++ " " ++ joinedKeyValues (q :: rest)

/-- Embedding of the argument-list construction of runAnsiblePlaybook
(src/unnamed/part_001 lines 595-635): binary name, playbook path, optional
inventory flag with the materialized temp file, and the extra-vars flag only
when the variable set is non-empty. -/
def runAnsiblePlaybookArgs (playbookPath : String) (inventoryFile : Option String)
    (extraVars : List (String × String)) : List String :=
  let args := ["ansible-playbook", playbookPath]
  let args := match inventoryFile with
    | some f => args ++ ["-i", f]
    | none => args
  if extraVars.length > 0 then args ++ ["--extra-vars", buildExtraVarsStr extraVars]
  else args

/-- Run lifecycle status (src/unnamed/part_001 lines 45-51). -/
inductive RunStatus where
  | started
  | completed
  | failed
deriving DecidableEq, Repr

/-- A playbook run record (src/unnamed/part_001 lines 53-65). -/
structure PlaybookRun where
  playbook : String
  inventory : String
  status : RunStatus
  startTime : Int
  endTime : Option Int
  duration : Option Int
  triggeredBy : String
  extraVars : List (String × String)
  output : String
  errorMsg : String
deriving DecidableEq, Repr

/-- A playbook log record (src/unnamed/part_001 lines 34-43). -/
structure PlaybookLog where
  playbook : String
  success : Bool
  output : String
  errorMsg : String
  startTime : Int
  endTime : Int
  duration : Int
deriving DecidableEq, Repr

/-- An inventory record (src/unnamed/part_001 lines 67-71). -/
structure Inventory where
  name : String
  content : String
deriving DecidableEq, Repr

/-- Inventory check lifecycle status (src/unnamed/part_001 lines 73-80). -/
inductive CheckStatus where
  | pending
  | running
  | completed
  | failed
deriving DecidableEq, Repr

/-- An inventory check record (src/unnamed/part_001 lines 82-90); a `none`
results field models the absent (NULL) mapping. -/
structure InventoryCheck where
  inventoryId : Nat
  status : CheckStatus
  results : Option (List (String × String))
  errorMsg : String
  startedAt : Int
  completedAt : Option Int
deriving DecidableEq, Repr

/-- A request body for the run endpoint (src/unnamed/part_001 lines 28-32). -/
structure PlaybookRequest where
  playbook : String
  inventory : String
  extraVars : List (String × String)
deriving DecidableEq, Repr

/-- The run table: runs listed in creation order; the store-assigned id of
the run at list index k is k+1 (SERIAL, monotonic). -/
structure RunStore where
  runs : List PlaybookRun
deriving DecidableEq, Repr

/-- The run row created by logPlaybookStart (src/unnamed/part_001 lines
556-571): status started, no end time, no duration. -/
def newRun (req : PlaybookRequest) (remoteAddr : String) (now : Int) : PlaybookRun :=
  { playbook := req.playbook
    inventory := req.inventory
    status := .started
    startTime := now
    endTime := none
    duration := none
    triggeredBy := remoteAddr
    extraVars := req.extraVars
    output := ""
    errorMsg := "" }

/-- Embedding of logPlaybookStart: insert the new started run and return the
store-assigned identifier. -/
def logPlaybookStart (s : RunStore) (req : PlaybookRequest) (remoteAddr : String)
    (now : Int) : Nat × RunStore :=
  (s.runs.length + 1, ⟨s.runs ++ [newRun req remoteAddr now]⟩)

/-- Look a run up by its store-assigned identifier. -/
def getRun (s : RunStore) (id : Nat) : Option PlaybookRun :=
  s.runs[id - 1]?

/-- Synchronous outcome of the run submission endpoint. -/
inductive SubmitOutcome where
  | notFound
  | serverError
  | accepted (runId : Nat)
deriving DecidableEq, Repr

/-- Embedding of the synchronous part of runPlaybookHandler (src/unnamed/
part_001 lines 269-330): playbookExists abstracts the os.Stat check under the
playbooks root, createOk abstracts success of the database insert. -/
def runPlaybookHandler (playbookExists createOk : Bool) (req : PlaybookRequest)
    (remoteAddr : String) (now : Int) (s : RunStore) : SubmitOutcome × RunStore :=
  if playbookExists = false then (.notFound, s)
  else if createOk = false then (.serverError, s)
  else
    let r := logPlaybookStart s req remoteAddr now
    (.accepted r.1, r.2)

/-- Terminal update applied to one run row by updatePlaybookRun (src/unnamed/
part_001 lines 573-593): status, output and error are always written; end
time and duration only for a non-started status, with the duration computed
from the stored start time. -/
def finalizeRun (r : PlaybookRun) (status : RunStatus) (output errorMsg : String)
    (now : Int) : PlaybookRun :=
  if status ≠ RunStatus.started then
    { r with status := status, output := output, errorMsg := errorMsg,
             endTime := some now, duration := some (now - r.startTime) }
  else
    { r with status := status, output := output, errorMsg := errorMsg }

/-- Embedding of updatePlaybookRun at the store level: update the addressed
row if it exists, otherwise change nothing (an UPDATE matching zero rows). -/
def updatePlaybookRun (s : RunStore) (runID : Nat) (status : RunStatus)
    (output errorMsg : String) (now : Int) : RunStore :=
  match s.runs[runID - 1]? with
  | none => s
  | some r => ⟨s.runs.set (runID - 1) (finalizeRun r status output errorMsg now)⟩

/-- Run records reachable in the orchestrator lifecycle: created in started
state by logPlaybookStart, then finalized at most once by the background
task with a terminal status (src/unnamed/part_001 lines 299-322) at a time
not earlier than the creation time (both timestamps are taken from the same
monotonic clock). -/
inductive RunReach : PlaybookRun → Prop where
  | created (req : PlaybookRequest) (addr : String) (now : Int) :
      RunReach (newRun req addr now)
  | finalized (r : PlaybookRun) (st : RunStatus) (output errorMsg : String) (now : Int) :
      RunReach r → r.status = .started →
      (st = .completed ∨ st = .failed) → r.startTime ≤ now →
      RunReach (finalizeRun r st output errorMsg now)

/-- The invariant of claim C4: end time and duration absent exactly in the
started state, and in a terminal state the end time is at least the start
time with duration equal to their difference. -/
def runInvariant (r : PlaybookRun) : Prop :=
  (r.status = .started → r.endTime = none ∧ r.duration = none) ∧
  (r.status ≠ .started →
    ∃ e, r.endTime = some e ∧ r.startTime ≤ e ∧ r.duration = some (e - r.startTime))

/-- The check row created by checkInventoryHandler (src/unnamed/part_001
lines 790-799): pending, no results, no completion time. -/
def newCheck (invId : Nat) (now : Int) : InventoryCheck :=
  { inventoryId := invId
    status := .pending
    results := none
    errorMsg := ""
    startedAt := now
    completedAt := none }

/-- The pending-to-running transition performed by the background goroutine
(src/unnamed/part_001 line 804). -/
def setCheckRunning (c : InventoryCheck) : InventoryCheck :=
  { c with status := .running }

/-- Embedding of testInventoryHosts (src/unnamed/part_001 lines 899-957):
inventoryContent abstracts the inventory lookup, execResult the combined
subprocess outcome (error for a launch failure or non-zero exit). On success
the captured output is parsed into the host-status mapping. -/
def testInventoryHosts (inventoryContent : Except String String)
    (execResult : Except String String) : Except String (List (String × String)) :=
  match inventoryContent with
  | .error e => .error ("failed to get inventory: " ++ e)
  | .ok _ =>
    match execResult with
    | .error e => .error ("ansible failed: " ++ e)
    | .ok output => .ok (parsePingResults output)

/-- Terminal update of a check by the background goroutine (src/unnamed/
part_001 lines 806-820): on error, failed with the error text and the
results column untouched; on success, completed with the parsed mapping;
the completion time is set either way. -/
def finalizeCheck (c : InventoryCheck) (res : Except String (List (String × String)))
    (now : Int) : InventoryCheck :=
  match res with
  | .error e => { c with status := .failed, errorMsg := e, completedAt := some now }
  | .ok m => { c with status := .completed, results := some m, completedAt := some now }

/-- The three record tables swept by the retention task. -/
structure DataStore where
  logs : List PlaybookLog
  runs : List PlaybookRun
  checks : List InventoryCheck
deriving DecidableEq, Repr

/-- Seconds in one day; the cutoff now − H days is modeled as now − H·86400
(time.AddDate(0,0,-H) on a UTC clock). -/
def secondsPerDay : Int := 86400

/-- Embedding of cleanupOldLogs (src/unnamed/part_001 lines 240-267): delete
logs, then runs, then checks, each keeping exactly the rows not strictly
older than the cutoff; a delete error (the fail flags) leaves that table
unchanged and returns, so later tables are not swept in that invocation. -/
def cleanupOldLogs (now retentionDays : Int)
    (logsDeleteFails runsDeleteFails checksDeleteFails : Bool)
    (s : DataStore) : DataStore :=
  let cutoff := now - retentionDays * secondsPerDay
  if logsDeleteFails then s
  else
    let s1 : DataStore := { s with logs := s.logs.filter (fun l => decide (cutoff ≤ l.startTime)) }
    if runsDeleteFails then s1
    else
      let s2 : DataStore := { s1 with runs := s1.runs.filter (fun r => decide (cutoff ≤ r.startTime)) }
      if checksDeleteFails then s2
      else { s2 with checks := s2.checks.filter (fun c => decide (cutoff ≤ c.startedAt)) }

/-- A run whose start time is 31 days before the sweep reference time 40·86400. -/
def runAged (age : Int) : PlaybookRun :=
  { playbook := "deploy.yml"
    inventory := ""
    status := .completed
    startTime := 40 * secondsPerDay - age * secondsPerDay
    endTime := some (40 * secondsPerDay - age * secondsPerDay + 5)
    duration := some 5
    triggeredBy := ""
    extraVars := []
    output := ""
    errorMsg := "" }

/-- Embedding of updateInventoryHandler's record mutation (src/unnamed/
part_001 lines 745-755): only a non-empty supplied content replaces the
stored content; the name is taken from the stored record and never from the
request body. -/
def updateInventoryRecord (stored updateData : Inventory) : Inventory :=
  { stored with content := if updateData.content ≠ "" then updateData.content else stored.content }

/-- Embedding of updateInventoryHandler (src/unnamed/part_001 lines 731-762):
stored is the lookup result by name (none models ErrRecordNotFound), body the
decoded request body (none models a malformed body). -/
def updateInventoryHandler (stored : Option Inventory) (body : Option Inventory) :
    Except String Inventory :=
  match stored with
  | none => .error "Inventory not found"
  | some inv =>
    match body with
    | none => .error "bad request"
    | some upd => .ok (updateInventoryRecord inv upd)

/-- A paginated listing response (src/unnamed/part_001 lines 113-125). -/
structure PageResponse (α : Type) where
  records : List α
  totalCount : Nat
  currentPage : Int
  totalPages : Nat
deriving DecidableEq, Repr

/-- Number of pages for a record count: ceiling division as computed by the
handlers, (count + pageSize − 1) / pageSize. -/
def totalPagesFor (pageSize totalCount : Nat) : Nat :=
  (totalCount + pageSize - 1) / pageSize

/-- The pagination block shared by the four listing handlers (src/unnamed/
part_001 lines 397-423 and its clones): floor the requested page to 1, clamp
to the last page when beyond it and at least one page exists, then slice the
ordered row set with LIMIT pageSize OFFSET (page−1)·pageSize. -/
def paginate {α : Type} (pageSize : Nat) (rows : List α) (pageReq : Int) : PageResponse α :=
  let page0 : Int := if pageReq < 1 then 1 else pageReq
  let totalCount := rows.length
  let tp := totalPagesFor pageSize totalCount
  let page : Int := if page0 > (tp : Int) ∧ 0 < tp then (tp : Int) else page0
  let offset : Nat := ((page - 1) * (pageSize : Int)).toNat
  { records := (rows.drop offset).take pageSize
    totalCount := totalCount
    currentPage := page
    totalPages := tp }

/-- Insert into a list sorted by the boolean order le. -/
def sortedInsert {α : Type} (le : α → α → Bool) (x : α) : List α → List α
  | [] => [x]
  | y :: ys => if le x y then x :: y :: ys else y :: sortedInsert le x ys

/-- Insertion sort by the boolean order le, modelling the SQL ORDER BY. -/
def sortBy {α : Type} (le : α → α → Bool) : List α → List α
  | [] => []
  | x :: xs => sortedInsert le x (sortBy le xs)

/-- Filtered, ordered row set of the logs listing (src/unnamed/part_001 lines
372-395 and 410): conjunctive filters, start time descending. -/
def logsQuery (table : List PlaybookLog) (successFilter : Option Bool)
    (playbookFilter : Option String) (fromTime toTime : Option Int) : List PlaybookLog :=
  let rows := table.filter (fun l =>
    (match successFilter with | some b => l.success == b | none => true) &&
    (match playbookFilter with | some p => l.playbook == p | none => true) &&
    (match fromTime with | some t => decide (t ≤ l.startTime) | none => true) &&
    (match toTime with | some t => decide (l.startTime ≤ t) | none => true))
  sortBy (fun a b => decide (b.startTime ≤ a.startTime)) rows

/-- Embedding of listLogsHandler (src/unnamed/part_001 lines 355-427). -/
def listLogsHandler (pageSize : Nat) (table : List PlaybookLog) (successFilter : Option Bool)
    (playbookFilter : Option String) (fromTime toTime : Option Int)
    (pageReq : Int) : PageResponse PlaybookLog :=
  paginate pageSize (logsQuery table successFilter playbookFilter fromTime toTime) pageReq

/-- Filtered, ordered row set of the runs listing (src/unnamed/part_001 lines
474-509). -/
def runsQuery (table : List PlaybookRun) (statusFilter : Option RunStatus)
    (playbookFilter : Option String) (fromTime toTime : Option Int) : List PlaybookRun :=
  let rows := table.filter (fun r =>
    (match statusFilter with | some st => r.status == st | none => true) &&
    (match playbookFilter with | some p => r.playbook == p | none => true) &&
    (match fromTime with | some t => decide (t ≤ r.startTime) | none => true) &&
    (match toTime with | some t => decide (r.startTime ≤ t) | none => true))
  sortBy (fun a b => decide (b.startTime ≤ a.startTime)) rows

/-- Embedding of getPlaybookRunsHandler (src/unnamed/part_001 lines 457-526). -/
def getPlaybookRunsHandler (pageSize : Nat) (table : List PlaybookRun)
    (statusFilter : Option RunStatus) (playbookFilter : Option String)
    (fromTime toTime : Option Int) (pageReq : Int) : PageResponse PlaybookRun :=
  paginate pageSize (runsQuery table statusFilter playbookFilter fromTime toTime) pageReq

/-- The inventories listing response (src/unnamed/part_001 lines 127-130); it
carries no current page or total pages. -/
structure InventoriesResponse where
  inventories : List Inventory
  totalCount : Nat
deriving DecidableEq, Repr

/-- Ordered row set of the inventories listing (src/unnamed/part_001 lines
659-677): no filters, name ascending. -/
def inventoriesQuery (table : List Inventory) : List Inventory :=
  sortBy (fun a b => decide (a.name ≤ b.name)) table

/-- Embedding of listInventoriesHandler (src/unnamed/part_001 lines 652-689):
same pagination block, name ascending, page fields dropped from the response. -/
def listInventoriesHandler (pageSize : Nat) (table : List Inventory)
    (pageReq : Int) : InventoriesResponse :=
  let pr := paginate pageSize (inventoriesQuery table) pageReq
  { inventories := pr.records, totalCount := pr.totalCount }

/-- The checks listing response (src/unnamed/part_001 lines 132-135). -/
structure ChecksResponse where
  checks : List InventoryCheck
  totalCount : Nat
deriving DecidableEq, Repr

/-- Filtered, ordered row set of the checks listing (src/unnamed/part_001
lines 840-866). -/
def checksQuery (table : List InventoryCheck) (inventoryIdFilter : Option Nat)
    (statusFilter : Option CheckStatus) : List InventoryCheck :=
  let rows := table.filter (fun c =>
    (match inventoryIdFilter with | some n => c.inventoryId == n | none => true) &&
    (match statusFilter with | some st => c.status == st | none => true))
  sortBy (fun a b => decide (b.startedAt ≤ a.startedAt)) rows

/-- Embedding of listInventoryChecksHandler (src/unnamed/part_001 lines
830-879). -/
def listInventoryChecksHandler (pageSize : Nat) (table : List InventoryCheck)
    (inventoryIdFilter : Option Nat) (statusFilter : Option CheckStatus)
    (pageReq : Int) : ChecksResponse :=
  let pr := paginate pageSize (checksQuery table inventoryIdFilter statusFilter) pageReq
  { checks := pr.records, totalCount := pr.totalCount }

/-- Observable events of the background tasks: acquiring and releasing the
global execution slot (the package-level sync.Mutex of src/unnamed/part_001
line 139) and entering/leaving the subprocess invocation recorded by the
fake executor of the concurrency property. Each task is named by a number. -/
inductive Ev where
  | lock (t : Nat)
  | unlock (t : Nat)
  | enterExec (t : Nat)
  | exitExec (t : Nat)
deriving DecidableEq, Repr

/-- The task an event belongs to. -/
def Ev.tid : Ev → Nat
  | .lock t => t
  | .unlock t => t
  | .enterExec t => t
  | .exitExec t => t

/-- One step of the mutex semantics: the state is the current holder; a lock
succeeds only when the slot is free, an unlock only by the holder; the
executor events do not touch the slot. none means the step cannot happen. -/
def mutexStep : Option Nat → Ev → Option (Option Nat)
  | none, .lock t => some (some t)
  | some _, .lock _ => none
  | some h, .unlock t => if h = t then some none else none
  | none, .unlock _ => none
  | h, .enterExec _ => some h
  | h, .exitExec _ => some h

/-- Run a whole event trace through the mutex semantics. -/
def mutexRun (h : Option Nat) : List Ev → Option (Option Nat)
  | [] => some h
  | e :: es =>
    match mutexStep h e with
    | none => none
    | some h2 => mutexRun h2 es

/-- A trace is consistent when every step obeys the mutex semantics starting
from a free slot. -/
def consistentTrace (tr : List Ev) : Bool :=
  (mutexRun none tr).isSome

/-- The subsequence of a trace belonging to one task. -/
def taskEvents (tr : List Ev) (t : Nat) : List Ev :=
  tr.filter (fun e => decide (e.tid = t))

/-- A submit task, per the goroutine of runPlaybookHandler (src/unnamed/
part_001 lines 299-322): take the slot, invoke the subprocess, release the
slot, in that order, each exactly once. -/
def isRunTask (tr : List Ev) (t : Nat) : Prop :=
  taskEvents tr t = [.lock t, .enterExec t, .exitExec t, .unlock t]

/-- A probe task, per the goroutine of checkInventoryHandler (src/unnamed/
part_001 lines 802-821): invoke the subprocess without ever touching the
execution slot. -/
def isProbeTask (tr : List Ev) (t : Nat) : Prop :=
  taskEvents tr t = [.enterExec t, .exitExec t]

/-- Task j enters the executor strictly between task i entering and leaving
it. -/
def execBetween (tr : List Ev) (i j : Nat) : Prop :=
  ∃ a b c, tr = a ++ Ev.enterExec i :: b ++ Ev.exitExec i :: c ∧ Ev.enterExec j ∈ b

/-- The execution intervals of tasks i and j overlap in the trace. -/
def execOverlap (tr : List Ev) (i j : Nat) : Prop :=
  execBetween tr i j ∨ execBetween tr j i

/-- A consistent trace in which two probe tasks execute concurrently. -/
def probeOverlapTrace : List Ev :=
  [.enterExec 1, .enterExec 2, .exitExec 1, .exitExec 2]

/-- A consistent trace of two serialized submit tasks, used as the concrete
instance for the mutual-exclusion theorem. -/
def serialRunTrace : List Ev :=
  [.lock 1, .enterExec 1, .exitExec 1, .unlock 1,
   .lock 2, .enterExec 2, .exitExec 2, .unlock 2]

/-- A concrete log row, used in concrete instances of the listing theorems. -/
def sampleLog : PlaybookLog :=
  { playbook := "deploy.yml", success := true, output := "ok", errorMsg := ""
    startTime := 100, endTime := 105, duration := 5 }

/-- A concrete inventory row, used in concrete instances. -/
def sampleInventory : Inventory :=
  { name := "production", content := "web1" }

/-- A concrete inventory check row, used in concrete instances. -/
def sampleCheck : InventoryCheck :=
  { inventoryId := 1, status := .completed, results := some []
    errorMsg := "", startedAt := 100, completedAt := some 120 }

/-! Helper lemmas shared by the claim theorems. -/

theorem strAppendAssoc (a b c : String) : (a ++ b) ++ c = a ++ (b ++ c) := by
  apply String.ext
  simp [String.data_append, List.append_assoc]

theorem appendLeftNeEmpty (s t : String) (h : s ≠ "") : s ++ t ≠ "" := by
  intro he
  apply h
  apply String.ext
  have hd := congrArg String.data he
  rw [String.data_append] at hd
  rcases List.append_eq_nil.mp hd with ⟨h1, _⟩
  simp [h1]

theorem kvNeEmpty (p : String × String) : p.1 ++ "=" ++ p.2 ≠ "" := by
  intro he
  have h0 := congrArg String.data he
  rw [String.data_append, String.data_append] at h0
  rcases List.append_eq_nil.mp h0 with ⟨h1, _⟩
  rcases List.append_eq_nil.mp h1 with ⟨_, h4⟩
  exact absurd h4 (by decide)

theorem ansibleFailedNeEmpty (e : String) : "ansible failed: " ++ e ≠ "" := by
  intro he
  have h0 := congrArg String.data he
  rw [String.data_append] at h0
  rcases List.append_eq_nil.mp h0 with ⟨h1, _⟩
  exact absurd h1 (by decide)

/-! Claim theorems. -/

/-- Claim C1, counterexample: on the captured text of the specification's own
example the parser produces the empty mapping, not the claimed two-host
mapping, because every example line has only four whitespace-separated fields
while parsePingResults demands at least six before extracting anything. -/
theorem parse_spec_example_is_empty :
    parsePingResults specExampleText = [] ∧
    parsePingResults specExampleText ≠ [("web1", "reachable"), ("web2", "unreachable")] := by
  decide

/-- Claim C1, amended: a captured line contributes a pair only when it
contains both the Host and is markers and has at least six fields, the host
being field index 1 and the status field index 5 with trailing single quotes
stripped; on text of that shape the mapping is hostname to status as claimed,
the malformed line Host web3 is is skipped without error, and the
four-field lines of the specification's example are likewise skipped, so the
example text itself parses to the empty mapping. -/
theorem parse_results_amended :
    parsePingResults sixFieldExampleText = [("web1", "reachable"), ("web2", "unreachable")] ∧
    parsePingResults specExampleText = [] := by
  decide

/-- Claim C3: a submit whose playbook does not resolve fails with NotFound
leaving the store unchanged; a submit whose playbook exists and whose record
creation succeeds returns the new identifier, and that identifier resolves to
a run in started state already in the returned store. -/
theorem submit_contract :
    ∀ (pe co : Bool) (req : PlaybookRequest) (addr : String) (now : Int) (s : RunStore),
    (pe = false → runPlaybookHandler pe co req addr now s = (.notFound, s)) ∧
    (pe = true → co = true →
      (runPlaybookHandler pe co req addr now s).1 = .accepted (s.runs.length + 1) ∧
      getRun (runPlaybookHandler pe co req addr now s).2 (s.runs.length + 1)
        = some (newRun req addr now) ∧
      (newRun req addr now).status = .started) := by
  intro pe co req addr now s
  constructor
  · intro h
    subst h
    simp [runPlaybookHandler]
  · intro h1 h2
    subst h1; subst h2
    refine ⟨rfl, ?_, rfl⟩
    simp only [runPlaybookHandler, logPlaybookStart, getRun]
    rw [Nat.add_sub_cancel]
    exact List.getElem?_concat_length s.runs (newRun req addr now)

/-- Concrete instance of submit_contract: a missing playbook is rejected with
the store untouched, and a successful submit against the empty store returns
id 1 resolving to a started run. -/
theorem submit_contract_witness :
    runPlaybookHandler false true ⟨"deploy.yml", "production", [("version", "1.0.0")]⟩
        "1.2.3.4" 7 ⟨[]⟩ = (.notFound, ⟨[]⟩) ∧
    (runPlaybookHandler true true ⟨"deploy.yml", "production", [("version", "1.0.0")]⟩
        "1.2.3.4" 7 ⟨[]⟩).1 = .accepted 1 ∧
    getRun (runPlaybookHandler true true ⟨"deploy.yml", "production", [("version", "1.0.0")]⟩
        "1.2.3.4" 7 ⟨[]⟩).2 1
      = some (newRun ⟨"deploy.yml", "production", [("version", "1.0.0")]⟩ "1.2.3.4" 7) := by
  refine ⟨?_, ?_, ?_⟩
  · exact (submit_contract false true ⟨"deploy.yml", "production", [("version", "1.0.0")]⟩
      "1.2.3.4" 7 ⟨[]⟩).1 rfl
  · exact ((submit_contract true true ⟨"deploy.yml", "production", [("version", "1.0.0")]⟩
      "1.2.3.4" 7 ⟨[]⟩).2 rfl rfl).1
  · exact ((submit_contract true true ⟨"deploy.yml", "production", [("version", "1.0.0")]⟩
      "1.2.3.4" 7 ⟨[]⟩).2 rfl rfl).2.1

/-- Claim C4: every run reachable in the orchestrator lifecycle has end time
and duration both absent in started state and both present in a terminal
state, and then the end time is at least the start time with the duration
equal to their difference. -/
theorem run_lifecycle_invariant : ∀ r : PlaybookRun, RunReach r → runInvariant r := by
  intro r h
  induction h with
  | created req addr now =>
    constructor
    · intro _; exact ⟨rfl, rfl⟩
    · intro hne; exact absurd rfl hne
  | finalized r st out err now hr hs hterm hle ih =>
    have hne : st ≠ RunStatus.started := by
      rcases hterm with h1 | h1 <;> subst h1 <;> intro hx <;> exact RunStatus.noConfusion hx
    constructor
    · intro hst
      rw [finalizeRun, if_pos hne] at hst
      exact absurd hst hne
    · intro _
      rw [finalizeRun, if_pos hne]
      exact ⟨now, rfl, hle, rfl⟩

/-- Concrete instance of run_lifecycle_invariant: a run created at time 10
and completed at time 15 satisfies the invariant. -/
theorem run_lifecycle_invariant_witness :
    runInvariant (finalizeRun (newRun ⟨"deploy.yml", "production", [("version", "1.0.0")]⟩
      "1.2.3.4" 10) .completed "ok" "" 15) :=
  run_lifecycle_invariant _
    (RunReach.finalized _ _ _ _ _
      (RunReach.created ⟨"deploy.yml", "production", [("version", "1.0.0")]⟩ "1.2.3.4" 10)
      rfl (Or.inl rfl) (by decide))

/-- Claim C5: a check whose subprocess invocation reports an error is
finalized as failed with the error text set (non-empty) and the results
column untouched (absent); a check whose invocation succeeds is finalized as
completed carrying the parsed mapping, including the empty mapping. -/
theorem check_finalization :
    ∀ (invId : Nat) (t0 now : Int) (content e output : String) (m : List (String × String)),
    (finalizeCheck (setCheckRunning (newCheck invId t0))
        (testInventoryHosts (.ok content) (.error e)) now).status = .failed ∧
    (finalizeCheck (setCheckRunning (newCheck invId t0))
        (testInventoryHosts (.ok content) (.error e)) now).errorMsg = "ansible failed: " ++ e ∧
    (finalizeCheck (setCheckRunning (newCheck invId t0))
        (testInventoryHosts (.ok content) (.error e)) now).errorMsg ≠ "" ∧
    (finalizeCheck (setCheckRunning (newCheck invId t0))
        (testInventoryHosts (.ok content) (.error e)) now).results = none ∧
    (finalizeCheck (setCheckRunning (newCheck invId t0))
        (testInventoryHosts (.ok content) (.ok output)) now).status = .completed ∧
    (finalizeCheck (setCheckRunning (newCheck invId t0))
        (testInventoryHosts (.ok content) (.ok output)) now).results
      = some (parsePingResults output) ∧
    (finalizeCheck (setCheckRunning (newCheck invId t0)) (.ok m) now).status = .completed ∧
    (finalizeCheck (setCheckRunning (newCheck invId t0)) (.ok m) now).results = some m := by
  intro invId t0 now content e output m
  exact ⟨rfl, rfl, ansibleFailedNeEmpty e, rfl, rfl, rfl, rfl, rfl⟩

/-- Claim C7, counterexample: with a 30-day horizon at reference time
40·86400 and a run 31 days old (hence strictly older than the cutoff), a
sweep whose logs-table deletion fails leaves the run table untouched — the
run deletion is not independent of the logs deletion, contradicting the claim
that a failure aborts only that table's sweep. -/
theorem sweep_not_independent :
    (runAged 31).startTime < 40 * secondsPerDay - 30 * secondsPerDay ∧
    cleanupOldLogs (40 * secondsPerDay) 30 true false false ⟨[], [runAged 31], []⟩
      = ⟨[], [runAged 31], []⟩ := by
  decide

/-- Claim C7, amended: the sweep computes cutoff = now − H days and deletes,
in the order logs, runs, checks, exactly the rows of each table strictly
older than the cutoff; a failing deletion aborts that table's sweep and all
later tables' sweeps of the same invocation (earlier deletions are kept); in
a failure-free sweep a run 31 days old is deleted under a 30-day horizon
while a run 29 days old survives. -/
theorem sweep_amended :
    ∀ (now h : Int) (s : DataStore) (b c : Bool),
    (∀ l : PlaybookLog, l ∈ (cleanupOldLogs now h false false false s).logs ↔
      l ∈ s.logs ∧ now - h * secondsPerDay ≤ l.startTime) ∧
    (∀ r : PlaybookRun, r ∈ (cleanupOldLogs now h false false false s).runs ↔
      r ∈ s.runs ∧ now - h * secondsPerDay ≤ r.startTime) ∧
    (∀ ch : InventoryCheck, ch ∈ (cleanupOldLogs now h false false false s).checks ↔
      ch ∈ s.checks ∧ now - h * secondsPerDay ≤ ch.startedAt) ∧
    cleanupOldLogs now h true b c s = s ∧
    (cleanupOldLogs now h false true c s).logs
      = s.logs.filter (fun l => decide (now - h * secondsPerDay ≤ l.startTime)) ∧
    (cleanupOldLogs now h false true c s).runs = s.runs ∧
    (cleanupOldLogs now h false true c s).checks = s.checks ∧
    (cleanupOldLogs (40 * secondsPerDay) 30 false false false
      ⟨[], [runAged 31, runAged 29], []⟩).runs = [runAged 29] := by
  intro now h s b c
  refine ⟨?_, ?_, ?_, ?_, ?_, ?_, ?_, ?_⟩
  · intro l; simp [cleanupOldLogs, List.mem_filter]
  · intro r; simp [cleanupOldLogs, List.mem_filter]
  · intro ch; simp [cleanupOldLogs, List.mem_filter]
  · simp [cleanupOldLogs]
  · simp [cleanupOldLogs]
  · simp [cleanupOldLogs]
  · simp [cleanupOldLogs]
  · decide

/-- Claim C10: updating an existing inventory never changes its name, and an
empty supplied content leaves the stored content unchanged, the call
succeeding and returning the prior record. -/
theorem update_inventory_frame :
    ∀ (inv upd : Inventory),
    updateInventoryHandler (some inv) (some upd) = .ok (updateInventoryRecord inv upd) ∧
    (updateInventoryRecord inv upd).name = inv.name ∧
    (upd.content = "" → updateInventoryHandler (some inv) (some upd) = .ok inv) := by
  intro inv upd
  refine ⟨rfl, rfl, ?_⟩
  intro h
  simp [updateInventoryHandler, updateInventoryRecord, h]

/-- Concrete instance of update_inventory_frame: an update carrying a new
name and empty content returns the stored record unchanged. -/
theorem update_inventory_frame_witness :
    updateInventoryHandler (some ⟨"production", "web1"⟩) (some ⟨"newname", ""⟩)
      = .ok ⟨"production", "web1"⟩ :=
  (update_inventory_frame ⟨"production", "web1"⟩ ⟨"newname", ""⟩).2.2 rfl

theorem buildExtraVars_go :
    ∀ (vs : List (String × String)) (acc : String), acc ≠ "" →
    List.foldl (fun acc p => (if acc = "" then acc else acc ++ " ") ++ p.1 ++ "=" ++ p.2) acc vs
      = if vs.isEmpty then acc else acc ++ " " ++ joinedKeyValues vs := by
  intro vs
  induction vs with
  | nil => intro acc _; simp
  | cons p rest ih =>
    intro acc hacc
    simp only [List.foldl_cons, List.isEmpty_cons, if_false, Bool.false_eq_true]
    rw [if_neg hacc]
    have hacc2 : ((acc ++ " ") ++ p.1 ++ "=" ++ p.2) ≠ "" :=
      appendLeftNeEmpty _ _ (appendLeftNeEmpty _ _ (appendLeftNeEmpty _ _
        (appendLeftNeEmpty acc " " hacc)))
    rw [ih _ hacc2]
    cases rest with
    | nil => simp [joinedKeyValues, strAppendAssoc]
    | cons q rs => simp [joinedKeyValues, strAppendAssoc]

theorem buildExtraVars_eq_joined (vs : List (String × String)) :
    buildExtraVarsStr vs = joinedKeyValues vs := by
  cases vs with
  | nil => rfl
  | cons p rest =>
    unfold buildExtraVarsStr
    simp only [List.foldl_cons, ite_true]
    have h1 : (("" : String) ++ p.1 ++ "=" ++ p.2) = p.1 ++ "=" ++ p.2 := by
      apply String.ext
      simp [String.data_append]
    rw [h1, buildExtraVars_go rest _ (kvNeEmpty p)]
    cases rest with
    | nil => simp [joinedKeyValues]
    | cons q rs => simp [joinedKeyValues, strAppendAssoc]

/-- Claim C6: the override-variable string the subprocess receives is the
key=value pairs joined by single spaces; when variables are present the
argument list carries exactly one extra --extra-vars flag followed by that
one string, and when the variable set is empty the argument list is the base
list with no extra-vars flag appended at all. -/
theorem extra_vars_flag :
    ∀ (path : String) (inv : Option String) (vars : List (String × String)),
    buildExtraVarsStr vars = joinedKeyValues vars ∧
    (vars = [] → runAnsiblePlaybookArgs path inv vars =
      ["ansible-playbook", path] ++ (match inv with | some f => ["-i", f] | none => [])) ∧
    (vars ≠ [] → runAnsiblePlaybookArgs path inv vars =
      (["ansible-playbook", path] ++ (match inv with | some f => ["-i", f] | none => []))
        ++ ["--extra-vars", joinedKeyValues vars]) := by
  intro path inv vars
  refine ⟨buildExtraVars_eq_joined vars, ?_, ?_⟩
  · intro h
    subst h
    cases inv <;> rfl
  · intro h
    have hlen : 0 < vars.length := List.length_pos.mpr h
    unfold runAnsiblePlaybookArgs
    rw [buildExtraVars_eq_joined]
    cases inv <;> simp [if_pos hlen]

/-- Concrete instance of extra_vars_flag: the empty variable set omits the
flag and a singleton set passes one flag with the joined pair. -/
theorem extra_vars_flag_witness :
    runAnsiblePlaybookArgs "deploy.yml" none [] = ["ansible-playbook", "deploy.yml"] ∧
    runAnsiblePlaybookArgs "deploy.yml" (some "inv.ini") [("version", "1.0.0")] =
      ["ansible-playbook", "deploy.yml", "-i", "inv.ini", "--extra-vars", "version=1.0.0"] := by
  constructor
  · exact (extra_vars_flag "deploy.yml" none []).2.1 rfl
  · have h := (extra_vars_flag "deploy.yml" (some "inv.ini") [("version", "1.0.0")]).2.2
      (by simp)
    rw [h]
    decide

theorem paginate_overshoot {α : Type} (pageSize : Nat) (rows : List α) (p : Int)
    (hps : 0 < pageSize) (hrows : rows ≠ [])
    (hp : (totalPagesFor pageSize rows.length : Int) < p) :
    paginate pageSize rows p
      = paginate pageSize rows (totalPagesFor pageSize rows.length) := by
  have hlen : 1 ≤ rows.length := List.length_pos.mpr hrows
  have htp : 1 ≤ totalPagesFor pageSize rows.length := by
    unfold totalPagesFor
    rw [Nat.one_le_div_iff hps]
    omega
  simp only [paginate]
  split_ifs <;> first | rfl | (exfalso; omega)

/-- Claim C2: for each of the four listing handlers, a request whose page
number exceeds the number of available pages returns the very response of the
last available page (same records, same current page where the response
carries one), never an error and never an empty overshoot page. -/
theorem listing_overshoot_clamps :
    ∀ (pageSize : Nat) (pageReq : Int), 0 < pageSize →
    (∀ table sf pf fromT toT, logsQuery table sf pf fromT toT ≠ [] →
      (totalPagesFor pageSize (logsQuery table sf pf fromT toT).length : Int) < pageReq →
      listLogsHandler pageSize table sf pf fromT toT pageReq
        = listLogsHandler pageSize table sf pf fromT toT
            (totalPagesFor pageSize (logsQuery table sf pf fromT toT).length)) ∧
    (∀ table st pf fromT toT, runsQuery table st pf fromT toT ≠ [] →
      (totalPagesFor pageSize (runsQuery table st pf fromT toT).length : Int) < pageReq →
      getPlaybookRunsHandler pageSize table st pf fromT toT pageReq
        = getPlaybookRunsHandler pageSize table st pf fromT toT
            (totalPagesFor pageSize (runsQuery table st pf fromT toT).length)) ∧
    (∀ table, inventoriesQuery table ≠ [] →
      (totalPagesFor pageSize (inventoriesQuery table).length : Int) < pageReq →
      listInventoriesHandler pageSize table pageReq
        = listInventoriesHandler pageSize table
            (totalPagesFor pageSize (inventoriesQuery table).length)) ∧
    (∀ table invF stF, checksQuery table invF stF ≠ [] →
      (totalPagesFor pageSize (checksQuery table invF stF).length : Int) < pageReq →
      listInventoryChecksHandler pageSize table invF stF pageReq
        = listInventoryChecksHandler pageSize table invF stF
            (totalPagesFor pageSize (checksQuery table invF stF).length)) := by
  intro pageSize pageReq hps
  refine ⟨?_, ?_, ?_, ?_⟩
  · intro table sf pf fromT toT hne hover
    unfold listLogsHandler
    rw [paginate_overshoot pageSize _ pageReq hps hne hover]
  · intro table st pf fromT toT hne hover
    unfold getPlaybookRunsHandler
    rw [paginate_overshoot pageSize _ pageReq hps hne hover]
  · intro table hne hover
    unfold listInventoriesHandler
    rw [paginate_overshoot pageSize _ pageReq hps hne hover]
  · intro table invF stF hne hover
    unfold listInventoryChecksHandler
    rw [paginate_overshoot pageSize _ pageReq hps hne hover]

/-- Concrete instance of listing_overshoot_clamps: with page size 1 and one
record in each table, requesting page 5 yields the page-1 response for every
handler. -/
theorem listing_overshoot_clamps_witness :
    listLogsHandler 1 [sampleLog] none none none none 5
      = listLogsHandler 1 [sampleLog] none none none none
          (totalPagesFor 1 (logsQuery [sampleLog] none none none none).length) ∧
    getPlaybookRunsHandler 1 [runAged 29] none none none none 5
      = getPlaybookRunsHandler 1 [runAged 29] none none none none
          (totalPagesFor 1 (runsQuery [runAged 29] none none none none).length) ∧
    listInventoriesHandler 1 [sampleInventory] 5
      = listInventoriesHandler 1 [sampleInventory]
          (totalPagesFor 1 (inventoriesQuery [sampleInventory]).length) ∧
    listInventoryChecksHandler 1 [sampleCheck] none none 5
      = listInventoryChecksHandler 1 [sampleCheck] none none
          (totalPagesFor 1 (checksQuery [sampleCheck] none none).length) := by
  have h := listing_overshoot_clamps 1 5 (by decide)
  exact ⟨h.1 [sampleLog] none none none none (by decide) (by decide),
    h.2.1 [runAged 29] none none none none (by decide) (by decide),
    h.2.2.1 [sampleInventory] (by decide) (by decide),
    h.2.2.2 [sampleCheck] none none (by decide) (by decide)⟩

/-- Claim C9: a listing over zero matching records applies no clamping: the
response carries the requested page number floored to 1 as current page,
zero total pages and an empty record list. -/
theorem empty_listing_no_clamp :
    ∀ (pageSize : Nat) (pageReq : Int) (table : List PlaybookLog)
      (sf : Option Bool) (pf : Option String) (fromT toT : Option Int),
    0 < pageSize → logsQuery table sf pf fromT toT = [] →
    listLogsHandler pageSize table sf pf fromT toT pageReq =
      { records := [], totalCount := 0,
        currentPage := if pageReq < 1 then 1 else pageReq, totalPages := 0 } := by
  intro ps preq table sf pf fromT toT hps hq
  unfold listLogsHandler
  rw [hq]
  have h0 : totalPagesFor ps 0 = 0 := by
    unfold totalPagesFor
    exact Nat.div_eq_of_lt (by omega)
  simp only [paginate, List.length_nil, h0, Nat.cast_zero, lt_irrefl, and_false, if_false,
    List.drop_nil, List.take_nil]

/-- Concrete instance of empty_listing_no_clamp: page 7 of an empty logs
table comes back as current page 7 with no records and zero pages. -/
theorem empty_listing_no_clamp_witness :
    listLogsHandler 20 [] none none none none 7 =
      { records := [], totalCount := 0, currentPage := 7, totalPages := 0 } := by
  have h := empty_listing_no_clamp 20 7 [] none none none none (by decide) rfl
  simpa using h

theorem mutexRun_append (xs : List Ev) :
    ∀ (h : Option Nat) (ys : List Ev),
    mutexRun h (xs ++ ys) = Option.bind (mutexRun h xs) (fun h2 => mutexRun h2 ys) := by
  induction xs with
  | nil => intro h ys; simp [mutexRun]
  | cons e es ih =>
    intro h ys
    cases hstep : mutexStep h e with
    | none => simp [mutexRun, hstep]
    | some h2 => simp [mutexRun, hstep, ih]

theorem mutexRun_lock_cons (hp : Option Nat) (t : Nat) (rest : List Ev) (h : Option Nat)
    (hrun : mutexRun hp (Ev.lock t :: rest) = some h) :
    hp = none ∧ mutexRun (some t) rest = some h := by
  cases hp with
  | none => exact ⟨rfl, by simpa [mutexRun, mutexStep] using hrun⟩
  | some u => simp [mutexRun, mutexStep] at hrun

theorem mutexRun_hold (i : Nat) :
    ∀ (b : List Ev) (h : Option Nat),
    Ev.unlock i ∉ b → mutexRun (some i) b = some h →
    h = some i ∧ ∀ t, Ev.lock t ∉ b := by
  intro b
  induction b with
  | nil =>
    intro h _ hrun
    simp [mutexRun] at hrun
    exact ⟨hrun.symm, by simp⟩
  | cons e es ih =>
    intro h hmem hrun
    cases e with
    | lock t => simp [mutexRun, mutexStep] at hrun
    | unlock t =>
      by_cases hti : i = t
      · subst hti
        exact absurd (List.mem_cons_self _ _) hmem
      · simp [mutexRun, mutexStep, hti] at hrun
    | enterExec t =>
      have hmem2 : Ev.unlock i ∉ es := fun hm => hmem (List.mem_cons_of_mem _ hm)
      have hrun2 : mutexRun (some i) es = some h := by
        simpa [mutexRun, mutexStep] using hrun
      obtain ⟨h1, h2⟩ := ih h hmem2 hrun2
      refine ⟨h1, ?_⟩
      intro t2 hc
      rcases List.mem_cons.mp hc with h3 | h3
      · exact Ev.noConfusion h3
      · exact h2 t2 h3
    | exitExec t =>
      have hmem2 : Ev.unlock i ∉ es := fun hm => hmem (List.mem_cons_of_mem _ hm)
      have hrun2 : mutexRun (some i) es = some h := by
        simpa [mutexRun, mutexStep] using hrun
      obtain ⟨h1, h2⟩ := ih h hmem2 hrun2
      refine ⟨h1, ?_⟩
      intro t2 hc
      rcases List.mem_cons.mp hc with h3 | h3
      · exact Ev.noConfusion h3
      · exact h2 t2 h3

theorem append_eq_single {α : Type} (xs ys : List α) (a : α)
    (h : xs ++ ys = [a]) : (xs = [] ∧ ys = [a]) ∨ (xs = [a] ∧ ys = []) := by
  cases xs with
  | nil => exact Or.inl ⟨rfl, by simpa using h⟩
  | cons x rest =>
    right
    simp only [List.cons_append, List.cons.injEq] at h
    obtain ⟨hx, hr⟩ := h
    rcases List.append_eq_nil.mp hr with ⟨h1, h2⟩
    subst hx; subst h1; subst h2
    exact ⟨rfl, rfl⟩

theorem filter_eq_single_split {α : Type} (p : α → Bool) :
    ∀ (l : List α) (x : α), l.filter p = [x] →
    ∃ l1 l2, l = l1 ++ x :: l2 ∧ l1.filter p = [] ∧ l2.filter p = [] := by
  intro l
  induction l with
  | nil => intro x h; simp at h
  | cons y ys ih =>
    intro x h
    cases hp : p y with
    | true =>
      rw [List.filter_cons_of_pos hp] at h
      simp only [List.cons.injEq] at h
      obtain ⟨hyx, hys⟩ := h
      subst hyx
      exact ⟨[], ys, rfl, rfl, hys⟩
    | false =>
      rw [List.filter_cons_of_neg (by simp [hp])] at h
      obtain ⟨l1, l2, he, h1, h2⟩ := ih x h
      refine ⟨y :: l1, l2, by rw [he, List.cons_append], ?_, h2⟩
      rw [List.filter_cons_of_neg (by simp [hp])]
      exact h1

theorem taskEvents_append (xs ys : List Ev) (t : Nat) :
    taskEvents (xs ++ ys) t = taskEvents xs t ++ taskEvents ys t :=
  List.filter_append xs ys

theorem taskEvents_cons_self (e : Ev) (l : List Ev) (t : Nat) (he : e.tid = t) :
    taskEvents (e :: l) t = e :: taskEvents l t := by
  simp [taskEvents, List.filter_cons, he]

theorem taskEvents_cons_other (e : Ev) (l : List Ev) (t : Nat) (he : ¬ e.tid = t) :
    taskEvents (e :: l) t = taskEvents l t := by
  simp [taskEvents, List.filter_cons, he]

theorem not_mem_of_taskEvents_nil (l : List Ev) (t : Nat) (h : taskEvents l t = [])
    (e : Ev) (he : e.tid = t) : e ∉ l := by
  intro hm
  have hmem : e ∈ taskEvents l t := List.mem_filter.mpr ⟨hm, by simp [he]⟩
  rw [h] at hmem
  exact absurd hmem (List.not_mem_nil e)

theorem runTaskSplit (i : Nat) (fa fb fc : List Ev)
    (h : fa ++ Ev.enterExec i :: (fb ++ Ev.exitExec i :: fc)
      = [Ev.lock i, Ev.enterExec i, Ev.exitExec i, Ev.unlock i]) :
    fa = [Ev.lock i] ∧ fb = [] ∧ fc = [Ev.unlock i] := by
  rcases fa with _ | ⟨x, _ | ⟨y, _ | ⟨z, _ | ⟨w, fa4⟩⟩⟩⟩ <;>
    rcases fb with _ | ⟨u, _ | ⟨v, fb2⟩⟩ <;>
    simp_all

theorem lockBeforeEnter (j : Nat) (x2 y2 : List Ev)
    (h : x2 ++ Ev.enterExec j :: y2
      = [Ev.lock j, Ev.enterExec j, Ev.exitExec j, Ev.unlock j]) :
    x2 = [Ev.lock j] ∧ y2 = [Ev.exitExec j, Ev.unlock j] := by
  rcases x2 with _ | ⟨x, _ | ⟨y, _ | ⟨z, _ | ⟨w, x4⟩⟩⟩⟩ <;> simp_all

theorem run_tasks_no_between (tr : List Ev) (i j : Nat)
    (hc : consistentTrace tr = true) (hi : isRunTask tr i) (hj : isRunTask tr j)
    (hij : i ≠ j) : ¬ execBetween tr i j := by
  rintro ⟨a, b, c, htr, hjb⟩
  obtain ⟨b1, b2, hbsplit⟩ := List.append_of_mem hjb
  subst hbsplit
  subst htr
  have hji : ¬ (j = i) := fun h => hij h.symm
  -- the i-events of the trace, in order
  have h0 := hi
  unfold isRunTask at h0
  rw [taskEvents_append, taskEvents_append,
    taskEvents_cons_self (Ev.enterExec i) _ i rfl,
    taskEvents_append,
    taskEvents_cons_other (Ev.enterExec j) b2 i (by simpa [Ev.tid] using hji),
    taskEvents_cons_self (Ev.exitExec i) c i rfl] at h0
  simp only [List.append_assoc, List.cons_append] at h0
  rw [← List.append_assoc] at h0
  obtain ⟨hfa, hfbb, hfc⟩ := runTaskSplit i _ _ _ h0
  obtain ⟨hb1i, hb2i⟩ := List.append_eq_nil.mp hfbb
  -- the j-events of the trace, in order
  have h1 := hj
  unfold isRunTask at h1
  rw [taskEvents_append, taskEvents_append,
    taskEvents_cons_other (Ev.enterExec i) _ j (by simpa [Ev.tid] using hij),
    taskEvents_append, taskEvents_cons_self (Ev.enterExec j) b2 j rfl,
    taskEvents_cons_other (Ev.exitExec i) c j (by simpa [Ev.tid] using hij)] at h1
  simp only [List.append_assoc, List.cons_append] at h1
  rw [← List.append_assoc] at h1
  obtain ⟨hXj, _⟩ := lockBeforeEnter j _ _ h1
  -- split a around the single lock i event it carries
  obtain ⟨a1, a2, ha, ha1, ha2⟩ := filter_eq_single_split _ a (Ev.lock i) hfa
  subst ha
  -- reduce the j-events of a to those of a1 and a2
  rw [taskEvents_append,
    taskEvents_cons_other (Ev.lock i) a2 j (by simpa [Ev.tid] using hij)] at hXj
  -- consistency gives a successful mutex execution of the whole trace
  unfold consistentTrace at hc
  obtain ⟨hfin, hrun⟩ := Option.isSome_iff_exists.mp hc
  have hrun0 := hrun
  simp only [List.append_assoc, List.cons_append] at hrun
  rw [mutexRun_append] at hrun
  obtain ⟨g1, hg1, hrun1⟩ := Option.bind_eq_some.mp hrun
  obtain ⟨hg1n, hrun2⟩ := mutexRun_lock_cons g1 i _ hfin hrun1
  have hsplitQ : a2 ++ (Ev.enterExec i :: (b1 ++ (Ev.enterExec j :: (b2 ++ (Ev.exitExec i :: c)))))
      = (a2 ++ Ev.enterExec i :: b1) ++ (Ev.enterExec j :: (b2 ++ (Ev.exitExec i :: c))) := by
    simp [List.append_assoc]
  rw [hsplitQ, mutexRun_append] at hrun2
  obtain ⟨g2, hQ, hR⟩ := Option.bind_eq_some.mp hrun2
  -- while task i is between its lock and unlock no lock event can occur
  have hnuQ : Ev.unlock i ∉ (a2 ++ Ev.enterExec i :: b1) := by
    intro hm
    rcases List.mem_append.mp hm with hm1 | hm2
    · exact not_mem_of_taskEvents_nil a2 i ha2 (Ev.unlock i) rfl hm1
    · rcases List.mem_cons.mp hm2 with h3 | h3
      · exact Ev.noConfusion h3
      · exact not_mem_of_taskEvents_nil b1 i hb1i (Ev.unlock i) rfl h3
  obtain ⟨hg2i, hnolockQ⟩ := mutexRun_hold i _ g2 hnuQ hQ
  -- locate lock j: it cannot be in a2 or b1, so it is in a1
  have hlockj_a1 : taskEvents a1 j = [Ev.lock j] ∧ taskEvents a2 j = [] ∧ taskEvents b1 j = [] := by
    rcases append_eq_single _ _ _ hXj with ⟨hA, hB⟩ | ⟨hA, hB⟩
    · exfalso
      have hmem : Ev.lock j ∈ b1 := by
        have : Ev.lock j ∈ taskEvents b1 j := by rw [hB]; exact List.mem_singleton.mpr rfl
        exact (List.mem_filter.mp this).1
      exact hnolockQ j (List.mem_append.mpr (Or.inr (List.mem_cons_of_mem _ hmem)))
    · rcases append_eq_single _ _ _ hA with ⟨hA1, hA2⟩ | ⟨hA1, hA2⟩
      · exfalso
        have hmem : Ev.lock j ∈ a2 := by
          have : Ev.lock j ∈ taskEvents a2 j := by rw [hA2]; exact List.mem_singleton.mpr rfl
          exact (List.mem_filter.mp this).1
        exact hnolockQ j (List.mem_append.mpr (Or.inl hmem))
      · exact ⟨hA1, hA2, hB⟩
  -- split a1 around its single lock j event
  obtain ⟨u, v, hau, hu, hv⟩ := filter_eq_single_split _ a1 (Ev.lock j) hlockj_a1.1
  subst hau
  -- run the mutex over the trace a second time, from task j's lock
  simp only [List.append_assoc, List.cons_append] at hrun0
  rw [mutexRun_append] at hrun0
  obtain ⟨g3, _, hrun3⟩ := Option.bind_eq_some.mp hrun0
  obtain ⟨_, hrun4⟩ := mutexRun_lock_cons g3 j _ hfin hrun3
  rw [mutexRun_append] at hrun4
  obtain ⟨g4, hv4, hrest4⟩ := Option.bind_eq_some.mp hrun4
  have hnuv : Ev.unlock j ∉ v := not_mem_of_taskEvents_nil v j hv (Ev.unlock j) rfl
  obtain ⟨hg4j, _⟩ := mutexRun_hold j v g4 hnuv hv4
  subst hg4j
  obtain ⟨habs, _⟩ := mutexRun_lock_cons (some j) i _ hfin hrest4
  exact Option.noConfusion habs

/-- Claim C8: in every trace obeying the execution-slot mutex semantics, the
executor intervals of two distinct submit tasks (which hold the slot around
the subprocess call) never overlap, while probe tasks (which never touch the
slot) can overlap, witnessed by a concrete consistent trace in which two
probe tasks are inside the executor simultaneously. -/
theorem submit_serialized_probes_concurrent :
    (∀ (tr : List Ev) (i j : Nat), consistentTrace tr = true → isRunTask tr i →
      isRunTask tr j → i ≠ j → ¬ execOverlap tr i j) ∧
    (consistentTrace probeOverlapTrace = true ∧ isProbeTask probeOverlapTrace 1 ∧
      isProbeTask probeOverlapTrace 2 ∧ execOverlap probeOverlapTrace 1 2) := by
  constructor
  · intro tr i j hc hi hj hij hov
    rcases hov with hb | hb
    · exact run_tasks_no_between tr i j hc hi hj hij hb
    · exact run_tasks_no_between tr j i hc hj hi (fun h => hij h.symm) hb
  · refine ⟨by decide, rfl, rfl,
      Or.inl ⟨[], [Ev.enterExec 2], [Ev.exitExec 2], rfl, ?_⟩⟩
    exact List.mem_singleton.mpr rfl

/-- Concrete instance of submit_serialized_probes_concurrent: in the
consistent trace of two serialized submit tasks the two execution intervals
do not overlap. -/
theorem submit_serialized_probes_concurrent_witness :
    ¬ execOverlap serialRunTrace 1 2 :=
  submit_serialized_probes_concurrent.1 serialRunTrace 1 2
    (by decide) rfl rfl (by decide)

end AnsibleApi
